import Mathlib

/-!
Verification of the CloudWatch logging hook (`cloudwatchhook` Go package).

The Go source is shallowly embedded: the hook struct becomes a Lean
structure, the channel of pending events becomes an explicit list, and the
cloud service's `PutLogEvents` response is passed in as an
`Except String (Option String)` value (an error message, or the
`NextSequenceToken` returned on success, which the API may leave nil).
Byte strings (Go `[]byte` / `string` message payloads) are modelled as
`List Nat`, so `len` is `List.length`.  The never-terminating `putBatch`
goroutine loop is embedded as a step function on its local state
(`batch`, `size`) driven by an explicit list of inputs (channel receives
and ticker fires), returning the batches it hands to `sendBatch`.
Mutex acquisition and the service calls are recorded as an action trace so
that serialization of uploads can be stated.
-/

namespace Cloudwatchhook

/-- Model of `types.InputLogEvent`: a message (byte string, as `List Nat`)
and a millisecond timestamp. -/
structure InputLogEvent where
  message : List Nat
  timestamp : Int
  deriving DecidableEq, Repr

/-- Model of `cloudwatchlogs.PutLogEventsInput` as built by `Write` and
`sendBatch`: the events, the group and stream names, and the sequence
token (`*string`, hence `Option String`). -/
structure PutLogEventsInput where
  logEvents : List InputLogEvent
  logGroupName : String
  logStreamName : String
  sequenceToken : Option String
  deriving DecidableEq, Repr

/-- Model of the mutable fields of `CloudWatchLogsHook` that the write and
batch paths touch.  `chEnabled` is `h.ch != nil`; the buffered channel's
pending contents are modelled explicitly as the list `queued`; `err` is
the cached `*error` field, modelled as the error's message. -/
structure CloudWatchLogsHook where
  group : String
  stream : String
  nextSequenceToken : Option String
  chEnabled : Bool
  queued : List InputLogEvent
  err : Option String
  deriving DecidableEq, Repr

/-- The batching-relevant fragment of `NewCloudWatchLogsHook`: the hook
starts with a nil sequence token, a nil cached error and an empty queue,
and the channel (with the `putBatch` goroutine) is created exactly when
`hook.logFrequency > 0` (the frequency is in nanoseconds, as a Go
`time.Duration`). -/
def newCloudWatchLogsHook (group stream : String) (logFrequency : Int) :
    CloudWatchLogsHook :=
  { group := group
    stream := stream
    nextSequenceToken := none
    chEnabled := decide (logFrequency > 0)
    queued := []
    err := none }

/-- `len(*p.Message) + 26`: the per-event size used by `putBatch` (message
byte length plus the fixed 26-byte overhead). -/
def messageSize (p : InputLogEvent) : Nat :=
  p.message.length + 26

/-- Cumulative size of a batch: the sum of its events' `messageSize`. -/
def batchSize (b : List InputLogEvent) : Nat :=
  (b.map messageSize).sum

/-- The local state of the `putBatch` loop: the accumulated `batch` slice
and the running `size` counter. -/
structure BatchState where
  batch : List InputLogEvent
  size : Nat
  deriving DecidableEq, Repr

/-- `var batch []types.InputLogEvent; size := 0` — the state at loop
entry. -/
def initBatchState : BatchState :=
  { batch := [], size := 0 }

/-- One iteration's stimulus for the `putBatch` select loop: either an
event received from the channel or a ticker fire. -/
inductive BatchInput where
  | event (p : InputLogEvent)
  | tick
  deriving DecidableEq, Repr

/-- One iteration of the `putBatch` select loop.  Returns the new local
state and the list of batches handed to `go h.sendBatch(batch)` during the
iteration (`[]` or a singleton).  On an event, if adding it would pass
1 MiB or the batch already holds 10000 events, the accumulated batch is
flushed first and the event starts a fresh batch; on a ticker fire the
accumulated batch is flushed unconditionally. -/
def putBatchStep (s : BatchState) (i : BatchInput) :
    BatchState × List (List InputLogEvent) :=
  match i with
  | BatchInput.event p =>
      let ms := messageSize p
      if s.size + ms > 1048576 ∨ s.batch.length = 10000 then
        ({ batch := [p], size := ms }, [s.batch])
      else
        ({ batch := s.batch ++ [p], size := s.size + ms }, [])
  | BatchInput.tick =>
      ({ batch := [], size := 0 }, [s.batch])

/-- Run the `putBatch` loop over a finite list of stimuli, collecting all
batches handed to `sendBatch` in order. -/
def putBatchRun (s : BatchState) :
    List BatchInput → BatchState × List (List InputLogEvent)
  | [] => (s, [])
  | i :: rest =>
      let step := putBatchStep s i
      let restRun := putBatchRun step.1 rest
      (restRun.1, step.2 ++ restRun.2)

/-- All batches that `putBatch`, started from its initial state, hands to
`sendBatch` while processing the given stimuli.  A batch handed over empty
results in no upload (`sendBatch` returns at `len(batch) == 0`), so the
uploads are exactly the non-empty entries of this list. -/
def putBatchOutputs (inputs : List BatchInput) : List (List InputLogEvent) :=
  (putBatchRun initBatchState inputs).2

/-- An observable action of the write / upload paths: taking or releasing
the hook's mutex, or a `client.PutLogEvents` call with the request that was
built. -/
inductive Action where
  | lock
  | unlock
  | putLogEvents (input : PutLogEventsInput)
  deriving DecidableEq, Repr

/-- The `PutLogEvents` requests occurring in an action trace, in order. -/
def putCalls : List Action → List PutLogEventsInput
  | [] => []
  | Action.putLogEvents i :: rest => i :: putCalls rest
  | Action.lock :: rest => putCalls rest
  | Action.unlock :: rest => putCalls rest

/-- `true` iff every `putLogEvents` in the trace happens while the mutex
is held, walking the trace with the current hold depth. -/
def putsUnderMutex : List Action → Nat → Bool
  | [], _ => true
  | Action.lock :: rest, d => putsUnderMutex rest (d + 1)
  | Action.unlock :: rest, d => putsUnderMutex rest (d - 1)
  | Action.putLogEvents _ :: rest, d => decide (0 < d) && putsUnderMutex rest d

/-- Result of a call to `Write`: the updated hook, the returned
`(int, error)` pair, and the trace of actions performed. -/
structure WriteResult where
  hook : CloudWatchLogsHook
  bytesWritten : Nat
  error : Option String
  actions : List Action
  deriving DecidableEq, Repr

/-- Model of `(h *CloudWatchLogsHook) Write(msg []byte) (int, error)`.

The source builds the event's timestamp from the wall clock
(`time.Now().UnixNano()` converted to milliseconds); it enters here as the
parameter `ts`.  The cloud service's response to the (at most one)
`PutLogEvents` call enters as `resp`: an error message or the returned
`NextSequenceToken`.

When the channel exists (batched mode), the event is sent on the channel
(appended to `queued`); then, if a cached error is present, it is cleared
and returned with a 0 byte count, else `len(msg)` is returned — no upload
happens on this path.  When the channel is nil, the mutex is taken and a
single `PutLogEvents` request carrying exactly this event and the stored
sequence token is issued; on failure `(0, err)` is returned with the hook
unchanged, on success the stored token is replaced by the returned one and
`(len(msg), nil)` is returned. -/
def Write (h : CloudWatchLogsHook) (msg : List Nat) (ts : Int)
    (resp : Except String (Option String)) : WriteResult :=
  let event : InputLogEvent := { message := msg, timestamp := ts }
  if h.chEnabled then
    let h1 := { h with queued := h.queued ++ [event] }
    match h1.err with
    | some lastErr =>
        { hook := { h1 with err := none }
          bytesWritten := 0
          error := some lastErr
          actions := [] }
    | none =>
        { hook := h1
          bytesWritten := msg.length
          error := none
          actions := [] }
  else
    let input : PutLogEventsInput :=
      { logEvents := [event]
        logGroupName := h.group
        logStreamName := h.stream
        sequenceToken := h.nextSequenceToken }
    match resp with
    | Except.error e =>
        { hook := h
          bytesWritten := 0
          error := some e
          actions := [Action.lock, Action.putLogEvents input, Action.unlock] }
    | Except.ok tok =>
        { hook := { h with nextSequenceToken := tok }
          bytesWritten := msg.length
          error := none
          actions := [Action.lock, Action.putLogEvents input, Action.unlock] }

/-- Result of a call to `sendBatch`: the updated hook and the trace of
actions performed (the Go function returns nothing). -/
structure SendResult where
  hook : CloudWatchLogsHook
  actions : List Action
  deriving DecidableEq, Repr

/-- Model of `(h *CloudWatchLogsHook) sendBatch(batch []types.InputLogEvent)`.

The mutex is taken for the whole call.  An empty batch causes an early
return with no request issued.  Otherwise one `PutLogEvents` request
carrying the batch and the stored sequence token is issued; on failure the
error is stored in the hook's cached `err` field (the token is untouched),
on success the stored token is replaced by the returned one. -/
def sendBatch (h : CloudWatchLogsHook) (batch : List InputLogEvent)
    (resp : Except String (Option String)) : SendResult :=
  if batch.length = 0 then
    { hook := h, actions := [Action.lock, Action.unlock] }
  else
    let input : PutLogEventsInput :=
      { logEvents := batch
        logGroupName := h.group
        logStreamName := h.stream
        sequenceToken := h.nextSequenceToken }
    match resp with
    | Except.error e =>
        { hook := { h with err := some e }
          actions := [Action.lock, Action.putLogEvents input, Action.unlock] }
    | Except.ok tok =>
        { hook := { h with nextSequenceToken := tok }
          actions := [Action.lock, Action.putLogEvents input, Action.unlock] }

/-- The logrus levels (logrus v1.8). -/
inductive Level where
  | panicLevel
  | fatalLevel
  | errorLevel
  | warnLevel
  | infoLevel
  | debugLevel
  | traceLevel
  deriving DecidableEq, Repr

/-- Model of `(h *CloudWatchLogsHook) Levels() []logrus.Level`: the levels
the hook registers for. -/
def Levels : List Level :=
  [Level.panicLevel, Level.fatalLevel, Level.errorLevel, Level.warnLevel,
   Level.infoLevel, Level.debugLevel]

/-- Result of a call to `Fire`: the updated hook, the returned error, and
the trace of actions performed. -/
structure FireResult where
  hook : CloudWatchLogsHook
  error : Option String
  actions : List Action
  deriving DecidableEq, Repr

/-- Model of `(h *CloudWatchLogsHook) Fire(entry *logrus.Entry) error`.

`entry.String()` enters as `line : Except String (List Nat)` (the
formatted entry bytes, or a formatting error).  On a formatting error,
`Fire` returns the wrapped error without writing.  Otherwise the switch on
the entry's level calls `Write` for Panic, Error, Warn, Info and Debug
(fallthrough chain) and returns its error; every other level hits the
`default` branch, which returns nil and performs nothing. -/
def Fire (h : CloudWatchLogsHook) (entryLevel : Level)
    (line : Except String (List Nat)) (ts : Int)
    (resp : Except String (Option String)) : FireResult :=
  match line with
  | Except.error e =>
      { hook := h, error := some ("Unable to parse entry: " ++ e), actions := [] }
  | Except.ok msg =>
      match entryLevel with
      | Level.panicLevel | Level.errorLevel | Level.warnLevel
      | Level.infoLevel | Level.debugLevel =>
          let w := Write h msg ts resp
          { hook := w.hook, error := w.error, actions := w.actions }
      | _ => { hook := h, error := none, actions := [] }

/-- `true` iff the stimulus is not an event whose single size already
passes the 1 MiB request limit.  The batching loop only keeps its byte
bound for such inputs. -/
def eventSizeOk : BatchInput → Bool
  | BatchInput.event p => messageSize p ≤ 1048576
  | BatchInput.tick => true

/-- An event whose message alone is over the 1 MiB request limit:
1048551 message bytes plus the 26-byte overhead gives 1048577 bytes. -/
def bigEvent : InputLogEvent :=
  { message := List.replicate 1048551 0, timestamp := 0 }

lemma messageSize_def (p : InputLogEvent) :
    messageSize p = p.message.length + 26 := rfl

lemma messageSize_bigEvent : messageSize bigEvent = 1048577 := by
  have h : bigEvent.message = List.replicate 1048551 0 := rfl
  rw [messageSize_def, h, List.length_replicate]

lemma batchSize_nil : batchSize [] = 0 := rfl

lemma batchSize_append (b : List InputLogEvent) (p : InputLogEvent) :
    batchSize (b ++ [p]) = batchSize b + messageSize p := by
  simp [batchSize]

lemma batchSize_singleton (p : InputLogEvent) :
    batchSize [p] = messageSize p := by
  simp [batchSize]

/-- Unfolding lemma: the step taken on an event that triggers the early
flush (it would pass 1 MiB, or the batch already holds 10000 events). -/
lemma putBatchStep_event_flush (s : BatchState) (p : InputLogEvent)
    (hc : s.size + messageSize p > 1048576 ∨ s.batch.length = 10000) :
    putBatchStep s (BatchInput.event p) =
      ({ batch := [p], size := messageSize p }, [s.batch]) := by
  simp only [putBatchStep]
  rw [if_pos hc]

/-- Unfolding lemma: the step taken on an event that still fits the
current batch. -/
lemma putBatchStep_event_keep (s : BatchState) (p : InputLogEvent)
    (hc : ¬(s.size + messageSize p > 1048576 ∨ s.batch.length = 10000)) :
    putBatchStep s (BatchInput.event p) =
      ({ batch := s.batch ++ [p], size := s.size + messageSize p }, []) := by
  simp only [putBatchStep]
  rw [if_neg hc]

/-- Unfolding lemma: a ticker fire always flushes. -/
lemma putBatchStep_tick (s : BatchState) :
    putBatchStep s BatchInput.tick = ({ batch := [], size := 0 }, [s.batch]) := rfl

lemma putBatchRun_nil (s : BatchState) : putBatchRun s [] = (s, []) := rfl

lemma putBatchRun_cons (s : BatchState) (i : BatchInput) (rest : List BatchInput) :
    putBatchRun s (i :: rest) =
      ((putBatchRun (putBatchStep s i).1 rest).1,
        (putBatchStep s i).2 ++ (putBatchRun (putBatchStep s i).1 rest).2) := rfl

/-- Feeding the loop one oversized event and then a tick flushes the
(empty) initial batch and then hands the singleton oversized batch to
`sendBatch`. -/
lemma putBatchOutputs_oversized (e : InputLogEvent)
    (he : 1048576 < messageSize e) :
    putBatchOutputs [BatchInput.event e, BatchInput.tick] = [[], [e]] := by
  have hc : initBatchState.size + messageSize e > 1048576 ∨
      initBatchState.batch.length = 10000 := by
    left
    simp only [initBatchState, gt_iff_lt]
    omega
  show (putBatchRun initBatchState [BatchInput.event e, BatchInput.tick]).2 = _
  rw [putBatchRun_cons, putBatchStep_event_flush _ _ hc, putBatchRun_cons,
    putBatchStep_tick, putBatchRun_nil]
  rfl

/-- Count part of the batching invariant: starting from any state whose
batch is within the count bound, every batch the loop hands over is within
the count bound. -/
lemma putBatchRun_count (inputs : List BatchInput) (s : BatchState)
    (hlen : s.batch.length ≤ 10000) :
    ∀ b ∈ (putBatchRun s inputs).2, b.length ≤ 10000 := by
  induction inputs generalizing s with
  | nil => simp [putBatchRun_nil]
  | cons i rest ih =>
    cases i with
    | event p =>
      by_cases hc : s.size + messageSize p > 1048576 ∨ s.batch.length = 10000
      · rw [putBatchRun_cons, putBatchStep_event_flush _ _ hc]
        simp only [List.cons_append, List.nil_append, List.mem_cons]
        rintro b (rfl | hb)
        · exact hlen
        · exact ih { batch := [p], size := messageSize p } (by simp) b hb
      · rw [putBatchRun_cons, putBatchStep_event_keep _ _ hc]
        simp only [List.nil_append]
        intro b hb
        refine ih { batch := s.batch ++ [p], size := s.size + messageSize p } ?_ b hb
        push_neg at hc
        simp only [List.length_append, List.length_singleton]
        omega
    | tick =>
      rw [putBatchRun_cons, putBatchStep_tick]
      simp only [List.cons_append, List.nil_append, List.mem_cons]
      rintro b (rfl | hb)
      · exact hlen
      · exact ih { batch := [], size := 0 } (by simp) b hb

/-- Size part of the batching invariant: if every event fed to the loop
fits the 1 MiB limit by itself and the running size is an accurate,
in-bound account of the accumulated batch, every batch the loop hands over
is within the byte bound. -/
lemma putBatchRun_size (inputs : List BatchInput) (s : BatchState)
    (hsmall : ∀ i ∈ inputs, eventSizeOk i = true)
    (hacc : s.size = batchSize s.batch) (hbound : s.size ≤ 1048576) :
    ∀ b ∈ (putBatchRun s inputs).2, batchSize b ≤ 1048576 := by
  induction inputs generalizing s with
  | nil => simp [putBatchRun_nil]
  | cons i rest ih =>
    have hsmall' : ∀ i ∈ rest, eventSizeOk i = true := by
      intro j hj
      exact hsmall j (List.mem_cons_of_mem _ hj)
    cases i with
    | event p =>
      have hp : messageSize p ≤ 1048576 := by
        have h := hsmall (BatchInput.event p) (List.mem_cons_self _ _)
        simpa [eventSizeOk] using h
      by_cases hc : s.size + messageSize p > 1048576 ∨ s.batch.length = 10000
      · rw [putBatchRun_cons, putBatchStep_event_flush _ _ hc]
        simp only [List.cons_append, List.nil_append, List.mem_cons]
        rintro b (rfl | hb)
        · rw [← hacc]
          exact hbound
        · exact ih { batch := [p], size := messageSize p } hsmall'
            (by rw [batchSize_singleton]) hp b hb
      · rw [putBatchRun_cons, putBatchStep_event_keep _ _ hc]
        simp only [List.nil_append]
        intro b hb
        push_neg at hc
        exact ih { batch := s.batch ++ [p], size := s.size + messageSize p }
          hsmall' (by rw [batchSize_append, hacc]) hc.1 b hb
    | tick =>
      rw [putBatchRun_cons, putBatchStep_tick]
      simp only [List.cons_append, List.nil_append, List.mem_cons]
      rintro b (rfl | hb)
      · rw [← hacc]
        exact hbound
      · exact ih { batch := [], size := 0 } hsmall' rfl (by norm_num) b hb

/-- Claim C1 (counterexample): the batching loop can hand `sendBatch` a
non-empty batch whose cumulative size passes 1 MiB.  Feeding the loop a
single event whose message is 1048551 bytes long (so its accounted size is
1048577 bytes) followed by a ticker fire makes it upload a batch of
cumulative size 1048577 > 1048576. -/
theorem putBatch_bounds_counterexample :
    ∃ b ∈ putBatchOutputs [BatchInput.event bigEvent, BatchInput.tick],
      b ≠ [] ∧ 1048576 < batchSize b := by
  have hbig : 1048576 < messageSize bigEvent := by
    rw [messageSize_bigEvent]
    norm_num
  refine ⟨[bigEvent], ?_, ?_, ?_⟩
  · rw [putBatchOutputs_oversized bigEvent hbig]
    exact List.Mem.tail _ (List.Mem.head _)
  · exact List.cons_ne_nil _ _
  · rw [batchSize_singleton, messageSize_bigEvent]
    norm_num

/-- Claim C1 (amended): for every stimulus sequence processed by the
batching loop, every batch it hands to an upload has at most 10000 events;
and provided no single event's accounted size (message length plus the
fixed 26-byte overhead) alone passes 1,048,576 bytes, every such batch
also has cumulative size at most 1,048,576 bytes. -/
theorem putBatch_bounds (inputs : List BatchInput) :
    (∀ b ∈ putBatchOutputs inputs, b.length ≤ 10000) ∧
    ((∀ i ∈ inputs, eventSizeOk i = true) →
      ∀ b ∈ putBatchOutputs inputs, batchSize b ≤ 1048576) :=
  ⟨putBatchRun_count inputs initBatchState (by simp [initBatchState]),
   fun hsmall =>
     putBatchRun_size inputs initBatchState hsmall rfl (by simp [initBatchState])⟩

/-- Witness for C1's amended bound at a concrete stimulus list. -/
theorem putBatch_bounds_witness :
    (∀ i ∈ [BatchInput.event { message := [72, 105], timestamp := 0 },
        BatchInput.tick], eventSizeOk i = true) ∧
    ((∀ b ∈ putBatchOutputs [BatchInput.event { message := [72, 105], timestamp := 0 },
        BatchInput.tick], b.length ≤ 10000) ∧
     (∀ b ∈ putBatchOutputs [BatchInput.event { message := [72, 105], timestamp := 0 },
        BatchInput.tick], batchSize b ≤ 1048576)) := by
  have hsmall : ∀ i ∈ [BatchInput.event { message := [72, 105], timestamp := 0 },
      BatchInput.tick], eventSizeOk i = true := by decide
  have h := putBatch_bounds [BatchInput.event { message := [72, 105], timestamp := 0 },
    BatchInput.tick]
  exact ⟨hsmall, h.1, h.2 hsmall⟩

/-- Claim C5: when the next incoming event would push the accumulated
batch past the count ceiling (the batch already holds 10000 events) or the
byte ceiling (its running size plus the event's accounted size passes
1,048,576 bytes), the loop iteration flushes the accumulated batch to
`sendBatch` at once — without waiting for the ticker — and starts a fresh
batch holding exactly that event. -/
theorem putBatch_early_flush (s : BatchState) (p : InputLogEvent)
    (hc : s.size + messageSize p > 1048576 ∨ s.batch.length = 10000) :
    putBatchStep s (BatchInput.event p) =
      ({ batch := [p], size := messageSize p }, [s.batch]) :=
  putBatchStep_event_flush s p hc

/-- Witness for C5 at a concrete loop state and event. -/
theorem putBatch_early_flush_witness :
    ((1048560 : Nat) + messageSize { message := [], timestamp := 0 } > 1048576 ∨
      ([{ message := [0], timestamp := 0 }] : List InputLogEvent).length = 10000) ∧
    putBatchStep { batch := [{ message := [0], timestamp := 0 }], size := 1048560 }
        (BatchInput.event { message := [], timestamp := 0 }) =
      ({ batch := [{ message := [], timestamp := 0 }],
         size := messageSize { message := [], timestamp := 0 } },
       [[{ message := [0], timestamp := 0 }]]) := by
  have hc : (1048560 : Nat) + messageSize { message := [], timestamp := 0 } > 1048576 ∨
      ([{ message := [0], timestamp := 0 }] : List InputLogEvent).length = 10000 := by
    left
    decide
  exact ⟨hc, putBatch_early_flush _ _ hc⟩

/-- A concrete event used by the witnesses. -/
def demoEvent : InputLogEvent :=
  { message := [1], timestamp := 0 }

/-- A concrete unbatched hook used by the witnesses. -/
def demoHook : CloudWatchLogsHook :=
  { group := "g", stream := "s", nextSequenceToken := some "t0",
    chEnabled := false, queued := [], err := none }

/-- A concrete batched hook used by the witnesses. -/
def demoHookBatched : CloudWatchLogsHook :=
  { group := "g", stream := "s", nextSequenceToken := some "t0",
    chEnabled := true, queued := [], err := none }

/-- Claim C2: a hook built with a zero batch duration has no batching
channel, and every call to `Write` on a hook without a channel performs
exactly one `PutLogEvents` call whose payload is exactly the single event
built from that message. -/
theorem write_unbatched_single_upload (g s : String) (h : CloudWatchLogsHook)
    (hch : h.chEnabled = false) (msg : List Nat) (ts : Int)
    (resp : Except String (Option String)) :
    (newCloudWatchLogsHook g s 0).chEnabled = false ∧
    putCalls (Write h msg ts resp).actions =
      [{ logEvents := [{ message := msg, timestamp := ts }],
         logGroupName := h.group,
         logStreamName := h.stream,
         sequenceToken := h.nextSequenceToken }] := by
  constructor
  · rfl
  · cases resp <;> simp [Write, hch, putCalls]

/-- Witness for C2 at a concrete hook, message and service response. -/
theorem write_unbatched_single_upload_witness :
    demoHook.chEnabled = false ∧
    ((newCloudWatchLogsHook "g" "s" 0).chEnabled = false ∧
      putCalls (Write demoHook [7] 0 (Except.ok (some "t1"))).actions =
        [{ logEvents := [{ message := [7], timestamp := 0 }],
           logGroupName := "g",
           logStreamName := "s",
           sequenceToken := some "t0" }]) :=
  ⟨rfl, write_unbatched_single_upload "g" "s" demoHook rfl [7] 0 (Except.ok (some "t1"))⟩

/-- Claim C3: in batched mode, a failed batch upload records its error in
the hook's cached error field and issues no further request (no retry);
the next call to `Write` then returns that cached error with a zero byte
count, clears the cached field, and itself performs no upload. -/
theorem batched_failure_cached_surfaced_not_retried (h : CloudWatchLogsHook)
    (hch : h.chEnabled = true) (batch : List InputLogEvent) (hb : batch ≠ [])
    (e : String) (msg : List Nat) (ts : Int)
    (resp : Except String (Option String)) :
    (sendBatch h batch (Except.error e)).hook.err = some e ∧
    putCalls (sendBatch h batch (Except.error e)).actions =
      [{ logEvents := batch,
         logGroupName := h.group,
         logStreamName := h.stream,
         sequenceToken := h.nextSequenceToken }] ∧
    (Write (sendBatch h batch (Except.error e)).hook msg ts resp).bytesWritten = 0 ∧
    (Write (sendBatch h batch (Except.error e)).hook msg ts resp).error = some e ∧
    (Write (sendBatch h batch (Except.error e)).hook msg ts resp).hook.err = none ∧
    (Write (sendBatch h batch (Except.error e)).hook msg ts resp).actions = [] := by
  have hlen : ¬(batch.length = 0) := by
    simpa [List.length_eq_zero] using hb
  have hsend : sendBatch h batch (Except.error e) =
      { hook := { h with err := some e }
        actions := [Action.lock, Action.putLogEvents
          { logEvents := batch, logGroupName := h.group,
            logStreamName := h.stream, sequenceToken := h.nextSequenceToken },
          Action.unlock] } := by
    simp only [sendBatch]
    rw [if_neg hlen]
  rw [hsend]
  refine ⟨rfl, rfl, ?_, ?_, ?_, ?_⟩ <;> simp [Write, hch, putCalls]

/-- Witness for C3 at a concrete hook, batch, error and message. -/
theorem batched_failure_cached_surfaced_not_retried_witness :
    demoHookBatched.chEnabled = true ∧
    ([demoEvent] : List InputLogEvent) ≠ [] ∧
    ((sendBatch demoHookBatched [demoEvent] (Except.error "boom")).hook.err =
        some "boom" ∧
     putCalls (sendBatch demoHookBatched [demoEvent] (Except.error "boom")).actions =
       [{ logEvents := [demoEvent],
          logGroupName := "g",
          logStreamName := "s",
          sequenceToken := some "t0" }] ∧
     (Write (sendBatch demoHookBatched [demoEvent] (Except.error "boom")).hook
        [2] 0 (Except.ok none)).bytesWritten = 0 ∧
     (Write (sendBatch demoHookBatched [demoEvent] (Except.error "boom")).hook
        [2] 0 (Except.ok none)).error = some "boom" ∧
     (Write (sendBatch demoHookBatched [demoEvent] (Except.error "boom")).hook
        [2] 0 (Except.ok none)).hook.err = none ∧
     (Write (sendBatch demoHookBatched [demoEvent] (Except.error "boom")).hook
        [2] 0 (Except.ok none)).actions = []) :=
  ⟨rfl, by decide,
   batched_failure_cached_surfaced_not_retried demoHookBatched rfl [demoEvent]
     (by decide) "boom" [2] 0 (Except.ok none)⟩

/-- Claim C4: every `PutLogEvents` request issued by `Write` (unbatched
path) or by `sendBatch` carries the hook's stored sequence token, and a
successful upload on either path replaces the stored token by the one the
service returned. -/
theorem sequence_token_threaded (h : CloudWatchLogsHook)
    (hch : h.chEnabled = false) (msg : List Nat) (ts : Int)
    (batch : List InputLogEvent) (hb : batch ≠ [])
    (resp resp2 : Except String (Option String)) (tok tok2 : Option String) :
    (∀ i ∈ putCalls (Write h msg ts resp).actions,
        i.sequenceToken = h.nextSequenceToken) ∧
    (Write h msg ts (Except.ok tok)).hook.nextSequenceToken = tok ∧
    (∀ i ∈ putCalls (sendBatch h batch resp2).actions,
        i.sequenceToken = h.nextSequenceToken) ∧
    (sendBatch h batch (Except.ok tok2)).hook.nextSequenceToken = tok2 := by
  have hlen : ¬(batch.length = 0) := by
    simpa [List.length_eq_zero] using hb
  refine ⟨?_, ?_, ?_, ?_⟩
  · cases hech : h.chEnabled <;> cases herr : h.err <;> cases resp <;>
      simp [Write, hech, herr, putCalls]
  · simp [Write, hch]
  · cases resp2 <;> simp [sendBatch, hlen, putCalls]
  · simp [sendBatch, hlen]

/-- Witness for C4 at a concrete hook, message, batch and responses. -/
theorem sequence_token_threaded_witness :
    demoHook.chEnabled = false ∧
    ([demoEvent] : List InputLogEvent) ≠ [] ∧
    ((∀ i ∈ putCalls (Write demoHook [9] 0 (Except.ok (some "t1"))).actions,
        i.sequenceToken = some "t0") ∧
     (Write demoHook [9] 0 (Except.ok (some "t1"))).hook.nextSequenceToken =
        some "t1" ∧
     (∀ i ∈ putCalls (sendBatch demoHook [demoEvent]
          (Except.ok (some "t2"))).actions,
        i.sequenceToken = some "t0") ∧
     (sendBatch demoHook [demoEvent]
        (Except.ok (some "t2"))).hook.nextSequenceToken = some "t2") :=
  ⟨rfl, by decide,
   sequence_token_threaded demoHook rfl [9] 0 [demoEvent] (by decide)
     (Except.ok (some "t1")) (Except.ok (some "t2")) (some "t1") (some "t2")⟩

/-- Claim C6: on the unbatched path, a failed upload makes `Write` return
the error synchronously with a zero byte count, and the hook — its stored
sequence token included — is left entirely unchanged. -/
theorem write_unbatched_failure (h : CloudWatchLogsHook)
    (hch : h.chEnabled = false) (msg : List Nat) (ts : Int) (e : String) :
    (Write h msg ts (Except.error e)).bytesWritten = 0 ∧
    (Write h msg ts (Except.error e)).error = some e ∧
    (Write h msg ts (Except.error e)).hook = h := by
  refine ⟨?_, ?_, ?_⟩ <;> simp [Write, hch]

/-- Witness for C6 at a concrete hook, message and error. -/
theorem write_unbatched_failure_witness :
    demoHook.chEnabled = false ∧
    ((Write demoHook [3] 0 (Except.error "down")).bytesWritten = 0 ∧
     (Write demoHook [3] 0 (Except.error "down")).error = some "down" ∧
     (Write demoHook [3] 0 (Except.error "down")).hook = demoHook) :=
  ⟨rfl, write_unbatched_failure demoHook rfl [3] 0 "down"⟩

/-- Claim C7: every `PutLogEvents` call in the action trace of `Write`
(either mode, either outcome) and of `sendBatch` (any batch, either
outcome) occurs while the hook's single mutex is held — the trace shape is
an acquire, the upload, a release.  Two uploads of the same hook therefore
cannot run concurrently, which is what the strictly ordered sequence
tokens require. -/
theorem uploads_serialized_by_mutex (h : CloudWatchLogsHook) (msg : List Nat)
    (ts : Int) (batch : List InputLogEvent)
    (resp resp2 : Except String (Option String)) :
    putsUnderMutex (Write h msg ts resp).actions 0 = true ∧
    putsUnderMutex (sendBatch h batch resp2).actions 0 = true := by
  constructor
  · cases hch : h.chEnabled <;> cases herr : h.err <;> cases resp <;>
      simp [Write, hch, herr, putsUnderMutex]
  · by_cases hlen : batch.length = 0 <;> cases resp2 <;>
      simp [sendBatch, hlen, putsUnderMutex]

/-- Claim C8: `Levels` reports FatalLevel among the levels the hook
handles, yet `Fire` on an entry at FatalLevel falls into the switch's
default branch: it returns nil, writes nothing, performs no action and
leaves the hook untouched — fatal entries are silently dropped. -/
theorem fire_fatal_silently_dropped (h : CloudWatchLogsHook)
    (line : List Nat) (ts : Int) (resp : Except String (Option String)) :
    Level.fatalLevel ∈ Levels ∧
    Fire h Level.fatalLevel (Except.ok line) ts resp =
      { hook := h, error := none, actions := [] } := by
  constructor
  · simp [Levels]
  · rfl

/-- Claim C9: in batched mode `Write` sends the event on the channel
before it inspects the cached error, so the new event is queued even on
the calls that return a previous batch failure. -/
theorem batched_write_enqueues_even_on_error (h : CloudWatchLogsHook)
    (hch : h.chEnabled = true) (msg : List Nat) (ts : Int)
    (resp : Except String (Option String)) :
    (Write h msg ts resp).hook.queued =
      h.queued ++ [{ message := msg, timestamp := ts }] ∧
    (∀ e, h.err = some e → (Write h msg ts resp).error = some e) := by
  constructor
  · cases herr : h.err <;> simp [Write, hch, herr]
  · intro e herr
    simp [Write, hch, herr]

/-- Witness for C9 at a concrete batched hook carrying a cached error. -/
theorem batched_write_enqueues_even_on_error_witness :
    ({ demoHookBatched with err := some "boom" }.chEnabled = true) ∧
    ((Write { demoHookBatched with err := some "boom" } [5] 0
        (Except.ok none)).hook.queued =
      { demoHookBatched with err := some "boom" }.queued ++
        [{ message := [5], timestamp := 0 }] ∧
     (∀ e, { demoHookBatched with err := some "boom" }.err = some e →
        (Write { demoHookBatched with err := some "boom" } [5] 0
          (Except.ok none)).error = some e)) :=
  ⟨rfl, batched_write_enqueues_even_on_error
    { demoHookBatched with err := some "boom" } rfl [5] 0 (Except.ok none)⟩

/-- Claim C10: `sendBatch` on an empty batch only takes and releases the
mutex: it issues no request and returns the hook — sequence token, cached
error and all — unchanged; and a failed upload of a non-empty batch
changes nothing but the cached error field (in particular the stored
sequence token is kept). -/
theorem sendBatch_empty_noop_failure_frame (h : CloudWatchLogsHook)
    (batch : List InputLogEvent) (hb : batch ≠ [])
    (resp : Except String (Option String)) (e : String) :
    sendBatch h [] resp = { hook := h, actions := [Action.lock, Action.unlock] } ∧
    (sendBatch h batch (Except.error e)).hook = { h with err := some e } := by
  have hlen : ¬(batch.length = 0) := by
    simpa [List.length_eq_zero] using hb
  constructor
  · rfl
  · simp [sendBatch, hlen]

/-- Witness for C10 at a concrete hook, batch and error. -/
theorem sendBatch_empty_noop_failure_frame_witness :
    ([demoEvent] : List InputLogEvent) ≠ [] ∧
    (sendBatch demoHook [] (Except.ok (some "t1")) =
      { hook := demoHook, actions := [Action.lock, Action.unlock] } ∧
     (sendBatch demoHook [demoEvent] (Except.error "boom")).hook =
      { demoHook with err := some "boom" }) :=
  ⟨by decide, sendBatch_empty_noop_failure_frame demoHook [demoEvent]
    (by decide) (Except.ok (some "t1")) "boom"⟩

end Cloudwatchhook
